import Mathlib

/-!
Shallow embedding of the httpfromtcp repository core:
the request-line decoder, the request state machine and the stream driver
(src/internal/request/request.go) and the header-block decoder
(src/internal/headers/headers.go).

Go byte slices are modelled as lists of characters (all inputs of interest
are ASCII, one character per byte); Go strings are the same lists.
Fallible Go returns are modelled with sum-like result types; a Go runtime
panic (slice index out of range) is modelled as an explicit outcome.
-/

/-- A byte sequence (Go []byte / string), one Char per byte. -/
abbrev Bytes := List Char

/-! ### Go standard-library byte helpers used by the source -/

/-- Model of Go bytes.Index(b, pat): index of the first occurrence of pat in b,
none when absent (-1 in Go). -/
def bytesIndex (pat : Bytes) : Bytes → Option Nat
  | [] => if pat.isPrefixOf ([] : Bytes) then some 0 else none
  | c :: rest =>
    if pat.isPrefixOf (c :: rest) then some 0
    else (bytesIndex pat rest).map (· + 1)

/-- Model of Go bytes.Split(s, sep) for the one-byte separators the source
uses (space and slash): split at every occurrence of the separator. -/
def splitOnChar (sep : Char) : Bytes → List Bytes
  | [] => [[]]
  | c :: rest =>
    if c = sep then [] :: splitOnChar sep rest
    else
      match splitOnChar sep rest with
      | [] => [[c]]
      | grp :: grps => (c :: grp) :: grps

/-- Model of Go bytes.SplitN(s, sep, 2) for a one-byte separator: the text
before the first occurrence and everything after it; the whole input when
the separator is absent. -/
def splitN2 (sep : Char) (s : Bytes) : List Bytes :=
  match bytesIndex [sep] s with
  | none => [s]
  | some i => [s.take i, s.drop (i + 1)]

/-- Go unicode.IsSpace on the Latin-1 range, as used by bytes.TrimSpace. -/
def isGoSpace (c : Char) : Bool :=
  c = ' ' || c = '\t' || c = '\n' || c = '\x0b' || c = '\x0c' || c = '\r' ||
  c = '\x85' || c = '\xa0'

/-- Model of Go bytes.TrimSpace: drop leading and trailing whitespace. -/
def trimSpace (s : Bytes) : Bytes :=
  ((s.dropWhile isGoSpace).reverse.dropWhile isGoSpace).reverse

/-- Model of Go bytes.HasSuffix(s, suffix). -/
def bytesHasSuffix (s suffix : Bytes) : Bool :=
  suffix.isSuffixOf s

/-! ### src/internal/request/request.go -/

/-- The parsed request line (struct RequestLine). -/
structure RequestLine where
  HttpVersion : Bytes
  RequestTarget : Bytes
  Method : Bytes
deriving DecidableEq, Repr

/-- Method RequestLine.ValidHTTP: whether the stored version equals the
literal text HTTP/1.1. -/
def RequestLine.ValidHTTP (r : RequestLine) : Bool :=
  r.HttpVersion == "HTTP/1.1".toList

/-- The three distinct error values declared in request.go
(ERROR_MALFORMED_REQUEST_LINE, ERROR_UNSUPPORTED_HTTP_VERSION,
ERROR_REQUEST_IN_ERROR_STATE). ERROR_UNSUPPORTED_HTTP_VERSION is declared
by the source but never returned by it. -/
inductive ReqErr where
  | malformedRequestLine
  | unsupportedHttpVersion
  | requestInErrorState
deriving DecidableEq, Repr

/-- var ERROR_MALFORMED_REQUEST_LINE. -/
def ERROR_MALFORMED_REQUEST_LINE : ReqErr := .malformedRequestLine

/-- var ERROR_UNSUPPORTED_HTTP_VERSION (declared, never returned). -/
def ERROR_UNSUPPORTED_HTTP_VERSION : ReqErr := .unsupportedHttpVersion

/-- var ERROR_REQUEST_IN_ERROR_STATE. -/
def ERROR_REQUEST_IN_ERROR_STATE : ReqErr := .requestInErrorState

/-- var SEPARATOR = []byte("\r\n"). -/
def SEPARATOR : Bytes := ['\r', '\n']

/-- The three outcomes of ParseRequestLine: (nil, 0, nil) when the separator
is not yet present, (nil, 0, err) on failure, (rl, read, nil) on success. -/
inductive RLResult where
  | incomplete
  | failed (e : ReqErr)
  | ok (rl : RequestLine) (read : Nat)
deriving DecidableEq, Repr

/-- func ParseRequestLine(b []byte) (*RequestLine, int, error).
Finds the first CRLF; splits the start line on spaces into exactly three
parts; splits the third part on a slash, requiring exactly ["HTTP", "1.1"].
Both the wrong-shape and the wrong-version branch return
ERROR_MALFORMED_REQUEST_LINE in the source. The stored HttpVersion is
httpParts[1], i.e. the text "1.1" after the slash. -/
def ParseRequestLine (b : Bytes) : RLResult :=
  match bytesIndex SEPARATOR b with
  | none => .incomplete
  | some idx =>
    match splitOnChar ' ' (b.take idx) with
    | [p0, p1, p2] =>
      match splitOnChar '/' p2 with
      | [h0, h1] =>
        if h0 = "HTTP".toList ∧ h1 = "1.1".toList then
          .ok { Method := p0, RequestTarget := p1, HttpVersion := h1 }
            (idx + SEPARATOR.length)
        else .failed ERROR_MALFORMED_REQUEST_LINE
      | _ => .failed ERROR_MALFORMED_REQUEST_LINE
    | _ => .failed ERROR_MALFORMED_REQUEST_LINE

/-- type parserState: the source uses a string-valued type whose only
constructed values are the three constants "init", "done", "error". -/
inductive parserState where
  | StateInit
  | StateDone
  | StateError
deriving DecidableEq, Repr

/-- struct Request: the request line and the parser state. The source has
no headers field and no header-parsing state. -/
structure Request where
  RequestLine : RequestLine
  state : parserState
deriving DecidableEq, Repr

/-- func newRequest: StateInit, zero-valued request line (empty strings). -/
def newRequest : Request :=
  { RequestLine := { HttpVersion := [], RequestTarget := [], Method := [] },
    state := .StateInit }

/-- Method Request.parse(data) (int, error), returning the updated request,
the bytes consumed and the error. The source's outer loop returns after at
most one state transition: from StateError it returns the in-error-state
error at once; from StateDone it breaks out consuming nothing; from
StateInit it runs ParseRequestLine once and either fails (entering
StateError), waits for more data, or records the line and enters StateDone,
returning immediately in each case. -/
def Request.parse (r : Request) (data : Bytes) : Request × Nat × Option ReqErr :=
  match r.state with
  | .StateError => (r, 0, some ERROR_REQUEST_IN_ERROR_STATE)
  | .StateDone => (r, 0, none)
  | .StateInit =>
    match ParseRequestLine data with
    | .failed e => ({ r with state := .StateError }, 0, some e)
    | .incomplete => (r, 0, none)
    | .ok rl n => ({ RequestLine := rl, state := .StateDone }, n, none)

/-- Method Request.done: StateDone or StateError. -/
def Request.done (r : Request) : Bool :=
  r.state = parserState.StateDone || r.state = parserState.StateError

/-- The working-buffer capacity fixed by RequestFromReader (1024 bytes). -/
def BUF_CAP : Nat := 1024

/-- Outcome of RequestFromReader. okReq models the (request, nil) return;
readerErr models (nil, err) from the reader (end of input); parseErr models
(nil, err) from Request.parse; panicked models a Go runtime panic from a
slice bound outside the buffer; fuelOut is the model artifact for a loop
still running after the given number of iterations. -/
inductive Outcome where
  | okReq (r : Request)
  | readerErr
  | parseErr (e : ReqErr)
  | panicked
  | fuelOut
deriving DecidableEq, Repr

/-- One chunked byte source: each Read delivers (up to the free space) the
next chunk of the list, and reports an error (end of input) when no chunks
remain, like a closing connection. -/
def oneByteChunks (s : Bytes) : List Bytes :=
  s.map (fun c => [c])

/-- The loop of func RequestFromReader, one recursive call per iteration.
State: remaining chunks, the 1024-byte buffer, bufIdx, the request.
Per iteration, as in the source: read into buf[bufIdx:], add n to bufIdx,
then call request.parse(buf[:bufIdx+n]) — the source adds n again on top of
the already-updated bufIdx, so the slice bound is bufIdx+n and panics when
it exceeds the 1024-byte capacity — then copy(buf, buf[readN:bufIdx]) and
subtract readN from bufIdx. -/
def requestFromReaderLoop : Nat → List Bytes → Bytes → Nat → Request → Outcome
  | 0, _, _, _, _ => .fuelOut
  | fuel + 1, chunks, buf, bufIdx, req =>
    if req.done then .okReq req
    else
      match chunks with
      | [] => .readerErr
      | c :: rest =>
        let space := BUF_CAP - bufIdx
        let n := min c.length space
        let delivered := c.take n
        let leftover := c.drop n
        let chunks1 := if leftover.isEmpty then rest else leftover :: rest
        let buf1 := buf.take bufIdx ++ delivered ++ buf.drop (bufIdx + n)
        let bufIdx1 := bufIdx + n
        if bufIdx1 + n > BUF_CAP then .panicked
        else
          let pr := req.parse (buf1.take (bufIdx1 + n))
          match pr.2.2 with
          | some e => .parseErr e
          | none =>
            let req1 := pr.1
            let readN := pr.2.1
            if readN > bufIdx1 then .panicked
            else
              let seg := (buf1.drop readN).take (bufIdx1 - readN)
              let buf2 := seg ++ buf1.drop seg.length
              requestFromReaderLoop fuel chunks1 buf2 (bufIdx1 - readN) req1

/-- func RequestFromReader(reader io.Reader): run the loop on a fresh
request and a zeroed 1024-byte buffer. -/
def RequestFromReader (chunks : List Bytes) (fuel : Nat) : Outcome :=
  requestFromReaderLoop fuel chunks (List.replicate BUF_CAP '\x00') 0 newRequest

/-! ### src/internal/headers/headers.go -/

/-- Headers, a map from header name to header value; Go map assignment is
modelled as overwrite-or-append on an association list. -/
abbrev Headers := List (Bytes × Bytes)

/-- func NewHeaders: the empty map. -/
def NewHeaders : Headers := []

/-- Go map assignment h[name] = value: overwrite an existing key, append
a new one. -/
def mapInsert (h : Headers) (k v : Bytes) : Headers :=
  if h.any (fun p => p.1 == k) then
    h.map (fun p => if p.1 == k then (k, v) else p)
  else h ++ [(k, v)]

/-- The two error values produced by headers.go, plus the Go runtime panic
raised when the loop slices data[read:] with read beyond the length. -/
inductive HErr where
  | malformedFieldLine
  | malformedFieldName
  | sliceOutOfRange
deriving DecidableEq, Repr

/-- var rn = []byte("\r\n"). -/
def rn : Bytes := ['\r', '\n']

/-- func parseHeader(fieldLine []byte) (string, string, error): split on the
first colon only; exactly two parts required; the value is whitespace
trimmed; a name with a trailing space byte (bytes.HasSuffix(name, " ")) is
rejected. -/
def parseHeader (fieldLine : Bytes) : Except HErr (Bytes × Bytes) :=
  match splitN2 ':' fieldLine with
  | [nm, rest] =>
    if bytesHasSuffix nm [' '] then .error .malformedFieldName
    else .ok (nm, trimSpace rest)
  | _ => .error .malformedFieldLine

/-- The loop body of Headers.Parse, one recursive call per iteration.
State carried exactly as in the source: the map h, the running read count,
and the (re-sliced) data. Each iteration looks for CRLF in data[read:]
(note: the source both advances read and re-slices data, so from the second
iteration on the scan starts past the re-sliced data's head; data[read:]
panics in Go when read exceeds the length); idx = 0 terminates the block;
otherwise parseHeader(data[:idx]) either fails (returning 0 consumed) or
stores the header and the loop continues on data[idx+2:]. -/
def headersParseLoop (h : Headers) (read : Nat) (data : Bytes) :
    Nat × Bool × Headers × Option HErr :=
  if read > data.length then (read, false, h, some .sliceOutOfRange)
  else
    match hidx : bytesIndex rn (data.drop read) with
    | none => (read, false, h, none)
    | some idx =>
      if idx = 0 then (read + rn.length, true, h, none)
      else
        match parseHeader (data.take idx) with
        | .error e => (0, false, h, some e)
        | .ok nv =>
          headersParseLoop (mapInsert h nv.1 nv.2) (read + idx + rn.length)
            (data.drop (idx + rn.length))
termination_by data.length
decreasing_by
  have hle : ∀ (l : Bytes) (i : Nat), bytesIndex rn l = some i → i + rn.length ≤ l.length := by
    intro l
    induction l with
    | nil =>
      intro i h2
      simp only [bytesIndex] at h2
      split at h2
      · rename_i hpre
        simp [List.isPrefixOf, rn] at hpre
      · cases h2
    | cons c rest ih =>
      intro i h2
      simp only [bytesIndex] at h2
      split at h2
      · rename_i hpre
        cases h2
        have hp : rn <+: c :: rest := (List.isPrefixOf_iff_prefix).mp hpre
        have := hp.length_le
        simpa using this
      · rename_i hpre
        cases hidx2 : bytesIndex rn rest with
        | none => rw [hidx2] at h2; cases h2
        | some j =>
          rw [hidx2] at h2
          simp only [Option.map_some'] at h2
          cases h2
          have := ih j hidx2
          simp only [List.length_cons]
          omega
  have hle2 := hle (data.drop read) idx hidx
  simp only [List.length_drop] at hle2 ⊢
  simp only [rn, List.length_cons, List.length_nil] at hle2
  omega

/-- Method Headers.Parse(data []byte) (int, bool, error): run the loop with
read = 0 on the given map. -/
def Headers.Parse (h : Headers) (data : Bytes) : Nat × Bool × Headers × Option HErr :=
  headersParseLoop h 0 data

/-- A 517-byte valid complete message: a 513-byte request line (500-byte
target), its CRLF, and the empty-line header-block terminator. Long enough
that the driver slice bound 2*517 exceeds the 1024-byte buffer when the
message arrives in one read. -/
def msg517 : Bytes :=
  "GET ".toList ++ ('/' :: List.replicate 499 'a') ++ " HTTP/1.1\r\n\r\n".toList

/-- bytesIndex pat l = some i implies the occurrence fits inside l. -/
theorem bytesIndex_some_le (pat : Bytes) :
    ∀ (l : Bytes) (i : Nat), bytesIndex pat l = some i → i + pat.length ≤ l.length := by
  intro l
  induction l with
  | nil =>
    intro i h
    simp only [bytesIndex] at h
    split at h
    · rename_i hpre
      have : pat = [] := by
        cases pat with
        | nil => rfl
        | cons a as => simp [List.isPrefixOf] at hpre
      cases h
      simp [this]
    · cases h
  | cons c rest ih =>
    intro i h
    simp only [bytesIndex] at h
    split at h
    · rename_i hpre
      cases h
      have hp : pat <+: c :: rest := by
        exact (List.isPrefixOf_iff_prefix).mp hpre
      have := hp.length_le
      simpa using this
    · rename_i hpre
      cases hidx : bytesIndex pat rest with
      | none => rw [hidx] at h; cases h
      | some j =>
        rw [hidx] at h
        simp only [Option.map_some'] at h
        cases h
        have := ih j hidx
        simp only [List.length_cons]
        omega

/-! ### Characterizations of bytesIndex (first-occurrence search) -/

/-- bytesIndex finds nothing exactly when the pattern is a prefix of no
suffix of the text. -/
theorem bytesIndex_eq_none_iff (pat : Bytes) :
    ∀ u : Bytes, bytesIndex pat u = none ↔ ∀ j, pat.isPrefixOf (u.drop j) = false := by
  intro u
  induction u with
  | nil =>
    by_cases hp : pat.isPrefixOf ([] : Bytes) = true
    · simp only [bytesIndex, if_pos hp]
      constructor
      · intro h; cases h
      · intro h; have h0 := h 0; rw [List.drop_nil] at h0; rw [hp] at h0; cases h0
    · simp only [bytesIndex, if_neg hp]
      constructor
      · intro _ j; rw [List.drop_nil]; exact Bool.eq_false_iff.mpr hp
      · intro _; trivial
  | cons c rest ih =>
    by_cases hp : pat.isPrefixOf (c :: rest) = true
    · simp only [bytesIndex, if_pos hp]
      constructor
      · intro h; cases h
      · intro h; have h0 := h 0; rw [List.drop_zero] at h0; rw [hp] at h0; cases h0
    · simp only [bytesIndex, if_neg hp]
      rw [Option.map_eq_none']
      rw [ih]
      constructor
      · intro h j
        cases j with
        | zero => rw [List.drop_zero]; exact Bool.eq_false_iff.mpr hp
        | succ j => rw [List.drop_succ_cons]; exact h j
      · intro h j
        have hj := h (j + 1); rw [List.drop_succ_cons] at hj; exact hj

/-- bytesIndex returns i exactly when the pattern starts at offset i and at
no earlier offset. -/
theorem bytesIndex_eq_some_iff (pat : Bytes) :
    ∀ (u : Bytes) (i : Nat), bytesIndex pat u = some i ↔
      (pat.isPrefixOf (u.drop i) = true ∧ ∀ j, j < i → pat.isPrefixOf (u.drop j) = false) := by
  intro u
  induction u with
  | nil =>
    intro i
    by_cases hp : pat.isPrefixOf ([] : Bytes) = true
    · simp only [bytesIndex, if_pos hp]
      constructor
      · intro h
        injection h with h0
        subst h0
        exact ⟨by rw [List.drop_nil]; exact hp, by intro j hj; omega⟩
      · intro ⟨h1, h2⟩
        cases i with
        | zero => rfl
        | succ k =>
          have h0 := h2 0 (by omega)
          rw [List.drop_nil] at h0; rw [hp] at h0; cases h0
    · simp only [bytesIndex, if_neg hp]
      constructor
      · intro h; cases h
      · intro ⟨h1, h2⟩
        rw [List.drop_nil] at h1
        exact absurd h1 hp
  | cons c rest ih =>
    intro i
    by_cases hp : pat.isPrefixOf (c :: rest) = true
    · simp only [bytesIndex, if_pos hp]
      constructor
      · intro h
        injection h with h0
        subst h0
        exact ⟨by rw [List.drop_zero]; exact hp, by intro j hj; omega⟩
      · intro ⟨h1, h2⟩
        cases i with
        | zero => rfl
        | succ k =>
          have h0 := h2 0 (by omega)
          rw [List.drop_zero] at h0; rw [hp] at h0; cases h0
    · simp only [bytesIndex, if_neg hp]
      cases i with
      | zero =>
        constructor
        · intro h
          rw [Option.map_eq_some'] at h
          obtain ⟨j, hj, hj1⟩ := h
          omega
        · intro ⟨h1, h2⟩
          rw [List.drop_zero] at h1
          exact absurd h1 hp
      | succ k =>
        constructor
        · intro h
          rw [Option.map_eq_some'] at h
          obtain ⟨j, hj, hj1⟩ := h
          have hjk : j = k := by omega
          subst hjk
          rw [ih] at hj
          refine ⟨by rw [List.drop_succ_cons]; exact hj.1, ?_⟩
          intro j hjlt
          cases j with
          | zero => rw [List.drop_zero]; exact Bool.eq_false_iff.mpr hp
          | succ j2 => rw [List.drop_succ_cons]; exact hj.2 j2 (by omega)
        · intro ⟨h1, h2⟩
          rw [Option.map_eq_some']
          refine ⟨k, ?_, rfl⟩
          rw [ih]
          rw [List.drop_succ_cons] at h1
          refine ⟨h1, ?_⟩
          intro j hjlt
          have := h2 (j + 1) (by omega)
          rw [List.drop_succ_cons] at this
          exact this

/-- CRLF cannot start at any offset of a text containing no CR byte. -/
theorem sep_not_prefix_of_no_cr (u : Bytes) (h : '\r' ∉ u) :
    ∀ j, SEPARATOR.isPrefixOf (u.drop j) = false := by
  intro j
  cases hu : u.drop j with
  | nil => rfl
  | cons a as =>
    have ha : a ∈ u := List.mem_of_mem_drop (hu ▸ List.mem_cons_self a as)
    have hne : ('\r' == a) = false := by
      rw [beq_eq_false_iff_ne]
      intro heq
      exact h (heq ▸ ha)
    simp [SEPARATOR, List.isPrefixOf, hne]

/-- The separator scan fails on any text containing no CR byte. -/
theorem bytesIndex_sep_none_of_no_cr (u : Bytes) (h : '\r' ∉ u) :
    bytesIndex SEPARATOR u = none :=
  (bytesIndex_eq_none_iff SEPARATOR u).mpr (sep_not_prefix_of_no_cr u h)

/-! ### Evaluation lemmas for the stream-driver loop -/

/-- Driver iteration: a terminal request returns immediately. -/
theorem rfr_done (fuel f : Nat) (chunks : List Bytes) (buf : Bytes) (bufIdx : Nat)
    (req : Request) (hfuel : fuel = f + 1) (h : req.done = true) :
    requestFromReaderLoop fuel chunks buf bufIdx req = .okReq req := by
  subst hfuel
  simp only [requestFromReaderLoop, h, if_true]

/-- Driver iteration: an exhausted source surfaces the reader error. -/
theorem rfr_eof (fuel f : Nat) (buf : Bytes) (bufIdx : Nat) (req : Request)
    (hfuel : fuel = f + 1) (h : req.done = false) :
    requestFromReaderLoop fuel [] buf bufIdx req = .readerErr := by
  subst hfuel
  simp only [requestFromReaderLoop, h, Bool.false_eq_true, if_false]

/-- Driver iteration: the parse-slice bound bufIdx+2n exceeds the buffer
capacity and the run panics. -/
theorem rfr_panic_bound (fuel f : Nat) (c : Bytes) (rest : List Bytes) (buf : Bytes)
    (bufIdx n : Nat) (req : Request)
    (hfuel : fuel = f + 1)
    (h1 : req.done = false)
    (hn : n = min c.length (BUF_CAP - bufIdx))
    (h2 : bufIdx + n + n > BUF_CAP) :
    requestFromReaderLoop fuel (c :: rest) buf bufIdx req = .panicked := by
  subst hfuel hn
  simp only [requestFromReaderLoop, h1, Bool.false_eq_true, if_false]
  rw [if_pos (by omega)]

/-- Driver iteration: an in-bounds read and a non-erroring parse step to
the next iteration with the compacted buffer. -/
theorem rfr_step (fuel f : Nat) (c : Bytes) (rest : List Bytes) (buf buf1 seg : Bytes)
    (bufIdx n readN : Nat) (req req1 : Request) (chunks1 : List Bytes)
    (hfuel : fuel = f + 1)
    (h1 : req.done = false)
    (hn : n = min c.length (BUF_CAP - bufIdx))
    (hb : ¬ bufIdx + n + n > BUF_CAP)
    (hbuf1 : buf1 = buf.take bufIdx ++ c.take n ++ buf.drop (bufIdx + n))
    (hparse : req.parse (buf1.take (bufIdx + n + n)) = (req1, readN, none))
    (hr : ¬ readN > bufIdx + n)
    (hch : chunks1 = if (c.drop n).isEmpty then rest else c.drop n :: rest)
    (hseg : seg = (buf1.drop readN).take (bufIdx + n - readN)) :
    requestFromReaderLoop fuel (c :: rest) buf bufIdx req =
      requestFromReaderLoop f chunks1 (seg ++ buf1.drop seg.length) (bufIdx + n - readN) req1 := by
  subst hfuel hn hbuf1 hch hseg
  simp only [requestFromReaderLoop, h1, Bool.false_eq_true, if_false]
  rw [if_neg hb, hparse]
  simp only [if_neg hr]

/-- Driver iteration: a parse error aborts the run with that error. -/
theorem rfr_parse_err (fuel f : Nat) (c : Bytes) (rest : List Bytes) (buf buf1 : Bytes)
    (bufIdx n readN : Nat) (req req1 : Request) (e : ReqErr)
    (hfuel : fuel = f + 1)
    (h1 : req.done = false)
    (hn : n = min c.length (BUF_CAP - bufIdx))
    (hb : ¬ bufIdx + n + n > BUF_CAP)
    (hbuf1 : buf1 = buf.take bufIdx ++ c.take n ++ buf.drop (bufIdx + n))
    (hparse : req.parse (buf1.take (bufIdx + n + n)) = (req1, readN, some e)) :
    requestFromReaderLoop fuel (c :: rest) buf bufIdx req = .parseErr e := by
  subst hfuel hn hbuf1
  simp only [requestFromReaderLoop, h1, Bool.false_eq_true, if_false]
  rw [if_neg hb, hparse]

/-! ### Evaluation lemmas for the header-block loop (well-founded definition) -/

/-- Loop evaluation: the slice data[read:] is out of range. -/
theorem hpl_panic (h : Headers) (read : Nat) (data : Bytes)
    (h1 : read > data.length) :
    headersParseLoop h read data = (read, false, h, some HErr.sliceOutOfRange) := by
  rw [headersParseLoop]
  simp [h1]

/-- Loop evaluation: no CRLF found, wait for more data. -/
theorem hpl_none (h : Headers) (read : Nat) (data : Bytes)
    (h1 : ¬ read > data.length) (h2 : bytesIndex rn (data.drop read) = none) :
    headersParseLoop h read data = (read, false, h, none) := by
  rw [headersParseLoop]
  rw [if_neg h1]
  split
  · rfl
  · rename_i idx heq; rw [h2] at heq; cases heq

/-- Loop evaluation: CRLF at offset 0 terminates the header block. -/
theorem hpl_done (h : Headers) (read : Nat) (data : Bytes)
    (h1 : ¬ read > data.length) (h2 : bytesIndex rn (data.drop read) = some 0) :
    headersParseLoop h read data = (read + rn.length, true, h, none) := by
  rw [headersParseLoop]
  rw [if_neg h1]
  split
  · rename_i heq; rw [h2] at heq; cases heq
  · rename_i idx heq; rw [h2] at heq; injection heq with hh; subst hh; rw [if_pos rfl]

/-- Loop evaluation: a malformed field line aborts with zero consumed. -/
theorem hpl_step_err (h : Headers) (read : Nat) (data : Bytes) (idx : Nat) (e : HErr)
    (h1 : ¬ read > data.length) (h2 : bytesIndex rn (data.drop read) = some idx)
    (h3 : ¬ idx = 0) (h4 : parseHeader (data.take idx) = .error e) :
    headersParseLoop h read data = (0, false, h, some e) := by
  rw [headersParseLoop]
  rw [if_neg h1]
  split
  · rename_i heq; rw [h2] at heq; cases heq
  · rename_i idx2 heq
    rw [h2] at heq; injection heq with hh; subst hh
    rw [if_neg h3, h4]

/-- Loop evaluation: a well-formed field line is stored and the loop
continues past it. -/
theorem hpl_step_ok (h : Headers) (read : Nat) (data : Bytes) (idx : Nat) (nv : Bytes × Bytes)
    (h1 : ¬ read > data.length) (h2 : bytesIndex rn (data.drop read) = some idx)
    (h3 : ¬ idx = 0) (h4 : parseHeader (data.take idx) = .ok nv) :
    headersParseLoop h read data =
      headersParseLoop (mapInsert h nv.1 nv.2) (read + idx + rn.length)
        (data.drop (idx + rn.length)) := by
  rw [headersParseLoop]
  rw [if_neg h1]
  split
  · rename_i heq; rw [h2] at heq; cases heq
  · rename_i idx2 heq
    rw [h2] at heq; injection heq with hh; subst hh
    rw [if_neg h3, h4]

/-- Whenever the header loop returns one of the two malformed-field errors,
the returned consumed count is 0 (the source returns the literal tuple
(0, false, err) from any depth of the loop). -/
theorem headersParseLoop_error_consumed :
    ∀ (h : Headers) (read : Nat) (data : Bytes) (r : Nat) (d : Bool) (h2 : Headers) (e : HErr),
      headersParseLoop h read data = (r, d, h2, some e) → e ≠ HErr.sliceOutOfRange → r = 0 := by
  intro h read data
  induction h, read, data using headersParseLoop.induct with
  | case1 h read data hgt =>
    intro r d h2 e heq hne
    rw [hpl_panic h read data hgt] at heq
    injection heq with e1 rest; injection rest with e2 rest2; injection rest2 with e3 e4
    injection e4 with e5
    exact absurd e5.symm hne
  | case2 h read data hgt hidx =>
    intro r d h2 e heq hne
    rw [hpl_none h read data hgt hidx] at heq
    injection heq with e1 rest; injection rest with e2 rest2; injection rest2 with e3 e4
    cases e4
  | case3 h read data hgt hidx =>
    intro r d h2 e heq hne
    rw [hpl_done h read data hgt hidx] at heq
    injection heq with e1 rest; injection rest with e2 rest2; injection rest2 with e3 e4
    cases e4
  | case4 h read data hgt idx hidx hne0 e herr =>
    intro r d h2 e2 heq hne
    rw [hpl_step_err h read data idx e hgt hidx hne0 herr] at heq
    injection heq with e1 rest
    omega
  | case5 h read data hgt idx hidx hne0 nv hok ih =>
    intro r d h2 e heq hne
    rw [hpl_step_ok h read data idx nv hgt hidx hne0 hok] at heq
    exact ih r d h2 e heq hne

/-! ### Claims -/

/-- Claim C1, counterexample: feeding the full example message
"GET / HTTP/1.1\r\nHost: example.com\r\n\r\n" (37 bytes) to a fresh state
machine consumes only the 16 request-line bytes and lands in the terminal
StateDone: the machine does not transition to a header-parsing phase and
does not continue consuming the remaining bytes of the same feed call, and
the resulting Request carries no header map at all. -/
theorem claim_C1_counterexample :
    newRequest.parse "GET / HTTP/1.1\r\nHost: example.com\r\n\r\n".toList =
      ({ RequestLine := { HttpVersion := "1.1".toList, RequestTarget := "/".toList,
                          Method := "GET".toList },
         state := .StateDone }, 16, none) ∧
    ("GET / HTTP/1.1\r\nHost: example.com\r\n\r\n".toList : Bytes).length = 37 :=
  ⟨rfl, rfl⟩

/-- Claim C1, amended: a successful request-line parse transitions the
machine directly to the terminal StateDone (there is no header-parsing
phase); the bytes after the request line are left unconsumed, and the
example input yields a Request with method GET, target /, version "1.1"
and no headers (the Request type has no header field and Headers.Parse is
never invoked by the machine). -/
theorem claim_C1 :
    (∀ (data : Bytes) (rl : RequestLine) (n : Nat), ParseRequestLine data = .ok rl n →
      newRequest.parse data = ({ RequestLine := rl, state := .StateDone }, n, none)) ∧
    RequestFromReader ["GET / HTTP/1.1\r\nHost: example.com\r\n\r\n".toList] 3 =
      .okReq { RequestLine := { HttpVersion := "1.1".toList, RequestTarget := "/".toList,
                                Method := "GET".toList },
               state := .StateDone } := by
  constructor
  · intro data rl n h
    simp [Request.parse, newRequest, h]
  · rfl

/-- Claim C1, witness: the amended statement applied to the bare request
line "GET / HTTP/1.1\r\n". -/
theorem claim_C1_witness :
    newRequest.parse "GET / HTTP/1.1\r\n".toList =
      ({ RequestLine := { HttpVersion := "1.1".toList, RequestTarget := "/".toList,
                          Method := "GET".toList },
         state := .StateDone }, 16, none) :=
  claim_C1.1 "GET / HTTP/1.1\r\n".toList
    { HttpVersion := "1.1".toList, RequestTarget := "/".toList, Method := "GET".toList }
    16 (by rfl)

/-- Claim C2, counterexample: a source that delivers exactly
"GET / HTTP/1.1\r\n" and then closes makes RequestFromReader return a
successful Request (the machine is already terminal after the request
line), not a truncated-message failure. -/
theorem claim_C2_counterexample :
    RequestFromReader ["GET / HTTP/1.1\r\n".toList] 3 =
      .okReq { RequestLine := { HttpVersion := "1.1".toList, RequestTarget := "/".toList,
                                Method := "GET".toList },
               state := .StateDone } :=
  rfl

/-- Claim C2, amended: RequestFromReader succeeds as soon as the request
line is parsed — a source closing right after the request line yields a
successful Request (which has no header map in this code) — while a source
that ends before a complete request line surfaces the reader's end-of-input
error instead of a Request. -/
theorem claim_C2 :
    RequestFromReader ["GET / HTTP/1.1\r\n".toList] 3 =
      .okReq { RequestLine := { HttpVersion := "1.1".toList, RequestTarget := "/".toList,
                                Method := "GET".toList },
               state := .StateDone } ∧
    RequestFromReader ["GET / HT".toList] 3 = .readerErr :=
  ⟨rfl, rfl⟩

/-- Claim C3, counterexample: parsing "GET / HTTP/1.1\r\n" succeeds and
stores HttpVersion = "1.1" (the text after the slash), not the literal
"HTTP/1.1", and ValidHTTP on the stored line returns false. -/
theorem claim_C3_counterexample :
    ParseRequestLine "GET / HTTP/1.1\r\n".toList =
      .ok { HttpVersion := "1.1".toList, RequestTarget := "/".toList,
            Method := "GET".toList } 16 ∧
    ("1.1".toList : Bytes) ≠ "HTTP/1.1".toList ∧
    RequestLine.ValidHTTP { HttpVersion := "1.1".toList, RequestTarget := "/".toList,
                            Method := "GET".toList } = false :=
  ⟨rfl, by decide, by decide⟩

/-- Claim C3, amended: on every successful request-line parse the stored
version is exactly the literal text "1.1" (any other text after the slash
is rejected, never stored), and ValidHTTP — which compares the stored
version against "HTTP/1.1" — therefore returns false for every
successfully parsed RequestLine. -/
theorem claim_C3 :
    ∀ (b : Bytes) (rl : RequestLine) (n : Nat), ParseRequestLine b = .ok rl n →
      rl.HttpVersion = "1.1".toList ∧ rl.ValidHTTP = false := by
  intro b rl n h
  unfold ParseRequestLine at h
  split at h
  · cases h
  · split at h
    · split at h
      · split at h
        · rename_i hc
          injection h with hrl hn
          subst hrl
          obtain ⟨hH, h11⟩ := hc
          subst h11
          exact ⟨rfl, rfl⟩
        · cases h
      · cases h
    · cases h

/-- Claim C3, witness: the amended statement applied to the parse of
"GET / HTTP/1.1\r\n". -/
theorem claim_C3_witness :
    ({ HttpVersion := "1.1".toList, RequestTarget := "/".toList,
       Method := "GET".toList } : RequestLine).HttpVersion = "1.1".toList ∧
    RequestLine.ValidHTTP { HttpVersion := "1.1".toList, RequestTarget := "/".toList,
                            Method := "GET".toList } = false :=
  claim_C3 "GET / HTTP/1.1\r\n".toList
    { HttpVersion := "1.1".toList, RequestTarget := "/".toList, Method := "GET".toList }
    16 (by rfl)

/-- Claim C4: the request line "GET / HTTP/1.0\r\n\r\n" — a well-formed
shape whose version is not 1.1 — is rejected with
ERROR_MALFORMED_REQUEST_LINE, not with the distinct
ERROR_UNSUPPORTED_HTTP_VERSION that the source declares for this case but
never returns. -/
theorem claim_C4 :
    ParseRequestLine "GET / HTTP/1.0\r\n\r\n".toList = .failed ERROR_MALFORMED_REQUEST_LINE ∧
    ERROR_MALFORMED_REQUEST_LINE ≠ ERROR_UNSUPPORTED_HTTP_VERSION :=
  ⟨rfl, by decide⟩

set_option maxRecDepth 4000 in
/-- Claim C5: a single read of 600 bytes (no CRLF) makes the driver slice
buf[:bufIdx+n] with bound 1200 after bufIdx was already advanced to 600 —
past the 1024-byte buffer — so the run panics even though the 600 bytes
themselves fit the buffer comfortably. -/
theorem claim_C5 :
    RequestFromReader [List.replicate 600 'A'] 5 = .panicked ∧ 600 ≤ BUF_CAP ∧
    600 + 600 > BUF_CAP :=
  ⟨rfl, by decide, by decide⟩

/-- Claim C6: an oversized header-free input of exactly the buffer
capacity, delivered as two 512-byte reads, ends in a slice-bounds panic on
the second iteration instead of a distinct buffer-capacity-exceeded
failure; no such distinct error kind exists in the driver. -/
theorem claim_C6 :
    RequestFromReader [List.replicate 512 'A', List.replicate 512 'A'] 5 = .panicked ∧
    (List.replicate 512 'A' ++ List.replicate 512 'A').length = BUF_CAP := by
  constructor
  · rw [RequestFromReader]
    have hnomem : ('\r' : Char) ∉ List.replicate 512 'A' ++ List.replicate 512 '\x00' := by
      simp [-List.reduceReplicate, List.mem_replicate]
    have hscan : bytesIndex SEPARATOR
        (List.replicate 512 'A' ++ List.replicate 512 '\x00') = none :=
      bytesIndex_sep_none_of_no_cr _ hnomem
    have hparse : newRequest.parse
        ((List.replicate 512 'A' ++ List.replicate 512 '\x00').take (0 + 512 + 512)) =
        (newRequest, 0, none) := by
      rw [List.take_of_length_le (by simp [-List.reduceReplicate])]
      simp [-List.reduceReplicate, Request.parse, newRequest, ParseRequestLine, hscan]
    rw [rfr_step 5 4 (List.replicate 512 'A') [List.replicate 512 'A']
        (List.replicate BUF_CAP '\x00')
        (List.replicate 512 'A' ++ List.replicate 512 '\x00')
        (List.replicate 512 'A')
        0 512 0 newRequest newRequest [List.replicate 512 'A']
        rfl
        rfl
        (by simp [-List.reduceReplicate, BUF_CAP])
        (by decide)
        (by simp [-List.reduceReplicate, BUF_CAP])
        hparse
        (by omega)
        (by simp [-List.reduceReplicate])
        (by simp [-List.reduceReplicate])]
    rw [show ((List.replicate 512 'A' : Bytes)).length = 512 from by
      simp [-List.reduceReplicate]]
    rw [show ((List.replicate 512 'A' ++ List.replicate 512 '\x00' : Bytes)).drop 512 =
        List.replicate 512 '\x00' from by simp [-List.reduceReplicate]]
    exact rfr_panic_bound 4 3 (List.replicate 512 'A') [] _ (0 + 512 - 0) 512 newRequest
      rfl rfl (by simp [-List.reduceReplicate, BUF_CAP]) (by simp [BUF_CAP])
  · simp [-List.reduceReplicate, BUF_CAP]

/-- Claim C7, counterexample: parsing "A: 1\r\nBBBBBBBBBB\r\n" from an
empty map reports 0 bytes consumed and a malformed-field error, yet the
map now contains the header A stored by the well-formed first line — the
caller is handed a partially populated map. -/
theorem claim_C7_counterexample :
    Headers.Parse [] "A: 1\r\nBBBBBBBBBB\r\n".toList =
      (0, false, [("A".toList, "1".toList)], some HErr.malformedFieldLine) ∧
    ([("A".toList, "1".toList)] : Headers) ≠ [] := by
  constructor
  · rw [Headers.Parse,
      hpl_step_ok [] 0 "A: 1\r\nBBBBBBBBBB\r\n".toList 4 ("A".toList, "1".toList)
        (by decide) (by rfl) (by decide) (by rfl)]
    rw [show mapInsert [] "A".toList "1".toList = [("A".toList, "1".toList)] from rfl]
    exact hpl_step_err _ 6 _ 4 HErr.malformedFieldLine (by decide) (by rfl) (by decide) (by rfl)
  · decide

/-- Claim C7, amended: on every malformed-field failure Headers.Parse does
report 0 bytes consumed, but the header map handed back is the in-place
mutated one: header lines successfully parsed earlier in the same call
remain stored in it (they are not rolled back). -/
theorem claim_C7 :
    (∀ (h : Headers) (data : Bytes) (r : Nat) (d : Bool) (h2 : Headers) (e : HErr),
      Headers.Parse h data = (r, d, h2, some e) → e ≠ HErr.sliceOutOfRange → r = 0) ∧
    Headers.Parse [] "A: 1\r\nBBBBBBBBBB\r\n".toList =
      (0, false, [("A".toList, "1".toList)], some HErr.malformedFieldLine) := by
  constructor
  · intro h data r d h2 e heq hne
    exact headersParseLoop_error_consumed h 0 data r d h2 e heq hne
  · rw [Headers.Parse,
      hpl_step_ok [] 0 "A: 1\r\nBBBBBBBBBB\r\n".toList 4 ("A".toList, "1".toList)
        (by decide) (by rfl) (by decide) (by rfl)]
    rw [show mapInsert [] "A".toList "1".toList = [("A".toList, "1".toList)] from rfl]
    exact hpl_step_err _ 6 _ 4 HErr.malformedFieldLine (by decide) (by rfl) (by decide) (by rfl)

/-- Claim C7, witness: the zero-consumed property applied to the concrete
failing buffer "Bx\r\n" (no colon in the field line). -/
theorem claim_C7_witness :
    Headers.Parse [] "Bx\r\n".toList = (0, false, [], some HErr.malformedFieldLine) ∧
    (0 : Nat) = 0 := by
  have heval : Headers.Parse [] "Bx\r\n".toList =
      (0, false, [], some HErr.malformedFieldLine) := by
    rw [Headers.Parse]
    exact hpl_step_err [] 0 "Bx\r\n".toList 2 HErr.malformedFieldLine
      (by decide) (by rfl) (by decide) (by rfl)
  exact ⟨heval,
    claim_C7.1 [] "Bx\r\n".toList 0 false [] HErr.malformedFieldLine heval (by decide)⟩

/-- Claim C9, counterexample: the field line "Host\t: x" has a whitespace
character (tab, whitespace by the code's own isGoSpace) immediately before
the colon, yet parseHeader accepts it, storing the name "Host\t": only a
trailing space byte is rejected, not trailing whitespace in general. -/
theorem claim_C9_counterexample :
    parseHeader "Host\t: x".toList = .ok ("Host\t".toList, "x".toList) ∧
    isGoSpace '\t' = true ∧
    bytesHasSuffix "Host\t".toList [' '] = false :=
  ⟨rfl, rfl, rfl⟩

/-- Claim C9, amended: a field line without a colon fails with the
malformed-field-line error; a name part ending in a space byte (0x20, the
only trailing-whitespace byte the code checks) immediately before the
first colon fails with the malformed-field-name error; otherwise the line
splits at the first colon only — the value keeps any further colons — and
the stored value is whitespace-trimmed. -/
theorem claim_C9 :
    ∀ fieldLine : Bytes,
      (bytesIndex [':'] fieldLine = none →
        parseHeader fieldLine = .error .malformedFieldLine) ∧
      (∀ i, bytesIndex [':'] fieldLine = some i →
        (bytesHasSuffix (fieldLine.take i) [' '] = true →
          parseHeader fieldLine = .error .malformedFieldName) ∧
        (bytesHasSuffix (fieldLine.take i) [' '] = false →
          parseHeader fieldLine = .ok (fieldLine.take i, trimSpace (fieldLine.drop (i + 1))))) := by
  intro fieldLine
  constructor
  · intro h
    simp [parseHeader, splitN2, h]
  · intro i h
    constructor <;> intro hs <;> simp [parseHeader, splitN2, h, hs]

/-- Claim C9, witness: the amended statement applied to "Host : x", whose
name part ends in a space byte before the colon. -/
theorem claim_C9_witness :
    parseHeader "Host : x".toList = .error .malformedFieldName :=
  ((claim_C9 "Host : x".toList).2 5 (by rfl)).1 (by rfl)

/-- Claim C10: feeding any bytes to a machine in the terminal StateDone is
a no-op — 0 bytes consumed, stored state unchanged, no error — and feeding
a machine in the terminal StateError consumes 0 bytes, leaves the state
unchanged (no re-parse) and returns ERROR_REQUEST_IN_ERROR_STATE, which is
distinct from both original failure reasons. -/
theorem claim_C10 :
    ∀ (r : Request) (data : Bytes),
      (r.state = .StateDone → r.parse data = (r, 0, none)) ∧
      (r.state = .StateError →
        r.parse data = (r, 0, some ERROR_REQUEST_IN_ERROR_STATE) ∧
        ERROR_REQUEST_IN_ERROR_STATE ≠ ERROR_MALFORMED_REQUEST_LINE ∧
        ERROR_REQUEST_IN_ERROR_STATE ≠ ERROR_UNSUPPORTED_HTTP_VERSION) := by
  intro r data
  constructor
  · intro h
    simp [Request.parse, h]
  · intro h
    refine ⟨by simp [Request.parse, h], by decide, by decide⟩

/-- Claim C10, witness: the no-op behavior at a concrete completed machine
and a concrete erroring machine. -/
theorem claim_C10_witness :
    Request.parse
      { RequestLine := { HttpVersion := "1.1".toList, RequestTarget := "/".toList,
                         Method := "GET".toList },
        state := .StateDone } "Host: x\r\n".toList =
      ({ RequestLine := { HttpVersion := "1.1".toList, RequestTarget := "/".toList,
                          Method := "GET".toList },
         state := .StateDone }, 0, none) :=
  (claim_C10 _ _).1 rfl

lemma sep_isPrefixOf_iff (u : Bytes) : SEPARATOR.isPrefixOf u = true ↔ u.take 2 = SEPARATOR := by
  rw [List.isPrefixOf_iff_prefix, List.prefix_iff_eq_take]
  rw [show SEPARATOR.length = 2 from rfl]
  exact eq_comm

lemma sep_prefix_short (u : Bytes) (h : u.length < 2) : SEPARATOR.isPrefixOf u = false := by
  rw [Bool.eq_false_iff]
  intro hp
  have hle := ((List.isPrefixOf_iff_prefix).mp hp).length_le
  rw [show SEPARATOR.length = 2 from rfl] at hle
  omega

lemma take_two_drop_append (x y : Bytes) (j : Nat) (h : j + 2 ≤ x.length) :
    ((x ++ y).drop j).take 2 = (x.drop j).take 2 := by
  rw [List.drop_append_eq_append_drop]
  rw [List.take_append_eq_append_take]
  have h1 : (x.drop j).length = x.length - j := List.length_drop ..
  rw [show 2 - (x.drop j).length = 0 from by omega]
  simp

lemma take_two_drop_take (s : Bytes) (m j : Nat) (h : j + 2 ≤ m) :
    ((s.take m).drop j).take 2 = (s.drop j).take 2 := by
  rw [List.drop_take, List.take_take]
  congr 1
  omega

lemma scan_take_incomplete (s : Bytes) (i : Nat) (hfound : bytesIndex SEPARATOR s = some i)
    (m : Nat) (hm : m ≤ i + 1) (hms : m ≤ s.length) (z : Char) (hz : z ≠ '\n') :
    bytesIndex SEPARATOR (s.take m ++ [z]) = none := by
  obtain ⟨hpre, hbefore⟩ := (bytesIndex_eq_some_iff _ _ _).mp hfound
  rw [bytesIndex_eq_none_iff]
  intro j
  have hxlen : (s.take m).length = m := by rw [List.length_take]; omega
  by_cases hj2 : j + 2 ≤ m
  · rw [Bool.eq_false_iff]
    intro hp
    rw [sep_isPrefixOf_iff] at hp
    rw [take_two_drop_append _ _ _ (by omega)] at hp
    rw [take_two_drop_take _ _ _ hj2] at hp
    rw [← sep_isPrefixOf_iff] at hp
    rw [hbefore j (by omega)] at hp
    cases hp
  · by_cases hjm : j ≥ m
    · apply sep_prefix_short
      rw [List.length_drop, List.length_append, hxlen]
      simp only [List.length_cons, List.length_nil]
      omega
    · -- j = m - 1, m ≥ 1: the window is [last byte of the take, z]
      have hj : j + 1 = m := by omega
      have hjs : j < s.length := by omega
      obtain ⟨b, r2, hbr⟩ : ∃ b r2, s.drop j = b :: r2 := by
        cases hd : s.drop j with
        | nil =>
          have := congrArg List.length hd
          rw [List.length_drop] at this
          simp at this
          omega
        | cons b r2 => exact ⟨b, r2, rfl⟩
      have hdj : ((s.take m) ++ [z]).drop j = (s.take m).drop j ++ [z] := by
        rw [List.drop_append_eq_append_drop]
        rw [show j - (s.take m).length = 0 from by omega]
        rfl
      have hdt : (s.take m).drop j = [b] := by
        rw [List.drop_take, hbr]
        rw [show m - j = 1 from by omega]
        rfl
      rw [hdj, hdt]
      have hzb : ('\n' == z) = false := by
        rw [beq_eq_false_iff_ne]
        intro he
        exact hz he.symm
      simp [SEPARATOR, List.isPrefixOf, hzb]

lemma scan_take_success (s : Bytes) (i : Nat) (hfound : bytesIndex SEPARATOR s = some i)
    (t : Bytes) :
    bytesIndex SEPARATOR (s.take (i + 2) ++ t) = some i := by
  obtain ⟨hpre, hbefore⟩ := (bytesIndex_eq_some_iff _ _ _).mp hfound
  have hfit := bytesIndex_some_le SEPARATOR s i hfound
  rw [show SEPARATOR.length = 2 from rfl] at hfit
  have hxlen : (s.take (i + 2)).length = i + 2 := by rw [List.length_take]; omega
  rw [bytesIndex_eq_some_iff]
  constructor
  · rw [sep_isPrefixOf_iff]
    rw [take_two_drop_append _ _ _ (by omega)]
    rw [take_two_drop_take _ _ _ (by omega)]
    rw [← sep_isPrefixOf_iff]
    exact hpre
  · intro j hj
    rw [Bool.eq_false_iff]
    intro hp
    rw [sep_isPrefixOf_iff] at hp
    rw [take_two_drop_append _ _ _ (by omega)] at hp
    rw [take_two_drop_take _ _ _ (by omega)] at hp
    rw [← sep_isPrefixOf_iff] at hp
    rw [hbefore j hj] at hp
    cases hp

lemma ParseRequestLine_congr (u v : Bytes) (i : Nat)
    (hu : bytesIndex SEPARATOR u = some i) (hv : bytesIndex SEPARATOR v = some i)
    (htake : u.take i = v.take i) :
    ParseRequestLine u = ParseRequestLine v := by
  unfold ParseRequestLine
  rw [hu, hv]
  split
  · rename_i heq; cases heq
  · rename_i idx heq
    injection heq with hi
    subst hi
    rw [htake]

lemma onebyte_buf1 (s : Bytes) (k : Nat) (hk1 : k + 1 ≤ s.length)
    (a : Char) (ha : s.drop k = a :: s.drop (k + 1)) :
    (s.take k ++ List.replicate (BUF_CAP - k) '\x00').take k ++ [a].take 1 ++
      (s.take k ++ List.replicate (BUF_CAP - k) '\x00').drop (k + 1) =
    s.take (k + 1) ++ List.replicate (BUF_CAP - (k + 1)) '\x00' := by
  have hklt : k < s.length := by omega
  have hxlen : (s.take k).length = k := by rw [List.length_take]; omega
  have hsk : s[k] = a := by
    have h2 := List.drop_eq_getElem_cons hklt
    rw [ha] at h2
    injection h2 with h3 h4
    exact h3.symm
  rw [List.take_append_eq_append_take, List.take_take, hxlen]
  rw [show min k k = k from by omega, Nat.sub_self]
  rw [List.take_zero, List.append_nil]
  rw [List.drop_append_eq_append_drop, hxlen]
  rw [List.drop_eq_nil_of_le (by omega)]
  rw [List.nil_append, List.drop_replicate]
  rw [show [a].take 1 = [a] from rfl]
  rw [show (s.take k ++ [a] : Bytes) = s.take (k + 1) from by
    rw [← hsk]; exact List.take_concat_get' s k hklt]
  rw [show k + 1 - k = 1 from by omega]
  rw [show BUF_CAP - k - 1 = BUF_CAP - (k + 1) from by omega]

lemma onebyte_region (s : Bytes) (k : Nat) (hk1 : k + 1 ≤ s.length) (hkB : k + 2 ≤ BUF_CAP) :
    (s.take (k + 1) ++ List.replicate (BUF_CAP - (k + 1)) '\x00').take (k + 1 + 1) =
    s.take (k + 1) ++ ['\x00'] := by
  have hxlen : (s.take (k + 1)).length = k + 1 := by rw [List.length_take]; omega
  rw [List.take_append_eq_append_take, List.take_take, hxlen]
  rw [show min (k + 1 + 1) (k + 1) = k + 1 from by omega]
  rw [show k + 1 + 1 - (k + 1) = 1 from by omega]
  rw [List.take_replicate]
  rw [show min 1 (BUF_CAP - (k + 1)) = 1 from by omega]
  rfl

lemma onebyte_seg (s : Bytes) (k : Nat) (hk1 : k + 1 ≤ s.length) :
    ((s.take (k + 1) ++ List.replicate (BUF_CAP - (k + 1)) '\x00').drop 0).take (k + 1 - 0) =
    s.take (k + 1) := by
  have hxlen : (s.take (k + 1)).length = k + 1 := by rw [List.length_take]; omega
  rw [List.drop_zero, Nat.sub_zero]
  rw [List.take_append_eq_append_take, List.take_take, hxlen]
  rw [show min (k + 1) (k + 1) = k + 1 from by omega, Nat.sub_self]
  rw [List.take_zero, List.append_nil]

lemma oneByteChunks_cons (a : Char) (l : Bytes) :
    oneByteChunks (a :: l) = [a] :: oneByteChunks l := rfl

lemma driver_onebyte (s : Bytes) (i : Nat) (rl : RequestLine)
    (hfound : bytesIndex SEPARATOR s = some i)
    (hok : ParseRequestLine s = .ok rl (i + 2))
    (hlen : s.length ≤ 1022) :
    ∀ (d k fuel : Nat), k + d = i + 1 → fuel ≥ d + 2 →
      requestFromReaderLoop fuel (oneByteChunks (s.drop k))
        (s.take k ++ List.replicate (BUF_CAP - k) '\x00') k newRequest =
      .okReq { RequestLine := rl, state := .StateDone } := by
  have hB : BUF_CAP = 1024 := rfl
  have hfit := bytesIndex_some_le SEPARATOR s i hfound
  rw [show SEPARATOR.length = 2 from rfl] at hfit
  intro d
  induction d with
  | zero =>
    intro k fuel hk hfuel
    -- k = i + 1: this iteration completes the request line, the next returns it
    obtain ⟨f, hf⟩ : ∃ f, fuel = f + 1 := ⟨fuel - 1, by omega⟩
    have hklt : k < s.length := by omega
    have hcons := List.drop_eq_getElem_cons hklt
    have hregion := onebyte_region s k (by omega) (by omega)
    have hscan : bytesIndex SEPARATOR (s.take (k + 1) ++ ['\x00']) = some i := by
      rw [show k + 1 = i + 2 from by omega]
      exact scan_take_success s i hfound ['\x00']
    have hPRL : ParseRequestLine (s.take (k + 1) ++ ['\x00']) = .ok rl (i + 2) := by
      rw [ParseRequestLine_congr (s.take (k + 1) ++ ['\x00']) s i hscan hfound ?_, hok]
      have hxlen : (s.take (k + 1)).length = k + 1 := by rw [List.length_take]; omega
      rw [List.take_append_eq_append_take, List.take_take, hxlen]
      rw [show min i (k + 1) = i from by omega]
      rw [show i - (k + 1) = 0 from by omega]
      rw [List.take_zero, List.append_nil]
    have hparse : newRequest.parse
        ((s.take (k + 1) ++ List.replicate (BUF_CAP - (k + 1)) '\x00').take (k + 1 + 1)) =
        ({ RequestLine := rl, state := .StateDone }, i + 2, none) := by
      rw [hregion]
      simp [Request.parse, newRequest, hPRL]
    rw [hcons, oneByteChunks_cons]
    rw [rfr_step fuel f [s[k]] (oneByteChunks (s.drop (k + 1)))
        (s.take k ++ List.replicate (BUF_CAP - k) '\x00')
        (s.take (k + 1) ++ List.replicate (BUF_CAP - (k + 1)) '\x00')
        []
        k 1 (i + 2) newRequest { RequestLine := rl, state := .StateDone }
        (oneByteChunks (s.drop (k + 1)))
        hf
        rfl
        (by rw [List.length_singleton]; exact (Nat.min_eq_left (by omega)).symm)
        (by omega)
        ((onebyte_buf1 s k (by omega) s[k] hcons).symm)
        hparse
        (by omega)
        (by simp)
        (by rw [show k + 1 - (i + 2) = 0 from by omega]; rw [List.take_zero])]
    exact rfr_done f (f - 1 + 1 - 1) _ _ _ { RequestLine := rl, state := .StateDone }
      (by omega) (by simp [Request.done])
  | succ d ih =>
    intro k fuel hk hfuel
    -- k ≤ i: the window has no CRLF yet; one no-progress iteration
    obtain ⟨f, hf⟩ : ∃ f, fuel = f + 1 := ⟨fuel - 1, by omega⟩
    have hklt : k < s.length := by omega
    have hcons := List.drop_eq_getElem_cons hklt
    have hregion := onebyte_region s k (by omega) (by omega)
    have hscan : bytesIndex SEPARATOR (s.take (k + 1) ++ ['\x00']) = none :=
      scan_take_incomplete s i hfound (k + 1) (by omega) (by omega) '\x00' (by decide)
    have hparse : newRequest.parse
        ((s.take (k + 1) ++ List.replicate (BUF_CAP - (k + 1)) '\x00').take (k + 1 + 1)) =
        (newRequest, 0, none) := by
      rw [hregion]
      simp [Request.parse, newRequest, ParseRequestLine, hscan]
    rw [hcons, oneByteChunks_cons]
    rw [rfr_step fuel f [s[k]] (oneByteChunks (s.drop (k + 1)))
        (s.take k ++ List.replicate (BUF_CAP - k) '\x00')
        (s.take (k + 1) ++ List.replicate (BUF_CAP - (k + 1)) '\x00')
        (s.take (k + 1))
        k 1 0 newRequest newRequest
        (oneByteChunks (s.drop (k + 1)))
        hf
        rfl
        (by rw [List.length_singleton]; exact (Nat.min_eq_left (by omega)).symm)
        (by omega)
        ((onebyte_buf1 s k (by omega) s[k] hcons).symm)
        hparse
        (by omega)
        (by simp)
        ((onebyte_seg s k (by omega)).symm)]
    rw [List.drop_left, Nat.sub_zero]
    exact ih (k + 1) f (by omega) (by omega)

lemma driver_singlechunk (s : Bytes) (i : Nat) (rl : RequestLine)
    (hfound : bytesIndex SEPARATOR s = some i)
    (hok : ParseRequestLine s = .ok rl (i + 2))
    (hlen : s.length ≤ 512) (fuel : Nat) (hfuel : fuel ≥ 2) :
    RequestFromReader [s] fuel = .okReq { RequestLine := rl, state := .StateDone } := by
  have hB : BUF_CAP = 1024 := rfl
  have hfit := bytesIndex_some_le SEPARATOR s i hfound
  rw [show SEPARATOR.length = 2 from rfl] at hfit
  obtain ⟨f, hf⟩ : ∃ f, fuel = f + 1 := ⟨fuel - 1, by omega⟩
  have hregion : (s ++ List.replicate (BUF_CAP - s.length) '\x00').take (s.length + s.length) =
      s.take (i + 2) ++ (s.drop (i + 2) ++ List.replicate (min s.length (BUF_CAP - s.length)) '\x00') := by
    rw [List.take_append_eq_append_take]
    rw [List.take_of_length_le (by omega)]
    rw [show s.length + s.length - s.length = s.length from by omega]
    rw [List.take_replicate]
    rw [← List.append_assoc, List.take_append_drop]
  have hscan : bytesIndex SEPARATOR
      (s.take (i + 2) ++ (s.drop (i + 2) ++ List.replicate (min s.length (BUF_CAP - s.length)) '\x00')) = some i :=
    scan_take_success s i hfound _
  have hPRL : ParseRequestLine
      (s.take (i + 2) ++ (s.drop (i + 2) ++ List.replicate (min s.length (BUF_CAP - s.length)) '\x00')) =
      .ok rl (i + 2) := by
    rw [ParseRequestLine_congr _ s i hscan hfound ?_, hok]
    have hxlen : (s.take (i + 2)).length = i + 2 := by rw [List.length_take]; omega
    rw [List.take_append_eq_append_take, List.take_take, hxlen]
    rw [show min i (i + 2) = i from by omega]
    rw [show i - (i + 2) = 0 from by omega]
    rw [List.take_zero, List.append_nil]
  have hparse : newRequest.parse
      (((List.replicate BUF_CAP '\x00').take 0 ++ s.take s.length ++
        (List.replicate BUF_CAP '\x00').drop (0 + s.length)).take (0 + s.length + s.length)) =
      ({ RequestLine := rl, state := .StateDone }, i + 2, none) := by
    rw [List.take_zero, List.nil_append, List.take_length]
    rw [show (0 : Nat) + s.length = s.length from by omega]
    rw [List.drop_replicate, hregion]
    simp [Request.parse, newRequest, hPRL]
  rw [RequestFromReader]
  rw [rfr_step fuel f s [] (List.replicate BUF_CAP '\x00')
      ((List.replicate BUF_CAP '\x00').take 0 ++ s.take s.length ++
        (List.replicate BUF_CAP '\x00').drop (0 + s.length))
      ((((List.replicate BUF_CAP '\x00').take 0 ++ s.take s.length ++
        (List.replicate BUF_CAP '\x00').drop (0 + s.length)).drop (i + 2)).take (0 + s.length - (i + 2)))
      0 s.length (i + 2) newRequest { RequestLine := rl, state := .StateDone }
      []
      hf
      rfl
      ((Nat.min_eq_left (by omega)).symm)
      (by omega)
      rfl
      hparse
      (by omega)
      (by rw [List.drop_length]; rfl)
      rfl]
  exact rfr_done f (f - 1 + 1 - 1) _ _ _ { RequestLine := rl, state := .StateDone }
    (by omega) (by simp [Request.done])

/-- Claim C8, amended: for every valid complete message of length at most
512 bytes (so that the driver's out-of-range parse slice, twice the fill,
still fits the 1024-byte buffer), delivering it in 1-byte chunks and
delivering it as a single chunk yield the same outcome: a successful
Request with the parsed request line in the terminal Done state. -/
theorem claim_C8 :
    ∀ (s : Bytes) (i : Nat) (rl : RequestLine) (fuel : Nat),
      bytesIndex SEPARATOR s = some i →
      ParseRequestLine s = .ok rl (i + 2) →
      s.length ≤ 512 → fuel ≥ s.length + 2 →
      RequestFromReader (oneByteChunks s) fuel = RequestFromReader [s] fuel ∧
      RequestFromReader [s] fuel = .okReq { RequestLine := rl, state := .StateDone } := by
  intro s i rl fuel hfound hok hlen hfuel
  have hfit := bytesIndex_some_le SEPARATOR s i hfound
  rw [show SEPARATOR.length = 2 from rfl] at hfit
  have hsingle := driver_singlechunk s i rl hfound hok hlen fuel (by omega)
  have honebyte : RequestFromReader (oneByteChunks s) fuel =
      .okReq { RequestLine := rl, state := .StateDone } := by
    have h1 := driver_onebyte s i rl hfound hok (by omega) (i + 1) 0 fuel (by omega) (by omega)
    rw [List.drop_zero, List.take_zero, List.nil_append, Nat.sub_zero] at h1
    rw [RequestFromReader]
    exact h1
  exact ⟨honebyte.trans hsingle.symm, hsingle⟩

set_option maxRecDepth 8000 in
/-- Claim C8, counterexample: msg517 is a valid complete message (its
request-line parse succeeds and consumes 515 of its 517 bytes), yet
delivering it as a single chunk makes the driver panic (slice bound
2*517 = 1034 > 1024) while delivering it in 1-byte chunks parses it
successfully: the two deliveries do not produce identical Requests. -/
theorem claim_C8_counterexample :
    ParseRequestLine msg517 =
      .ok { HttpVersion := "1.1".toList, RequestTarget := '/' :: List.replicate 499 'a',
            Method := "GET".toList } 515 ∧
    msg517.length = 517 ∧
    RequestFromReader [msg517] 520 = .panicked ∧
    RequestFromReader (oneByteChunks msg517) 520 =
      .okReq { RequestLine := { HttpVersion := "1.1".toList,
                                RequestTarget := '/' :: List.replicate 499 'a',
                                Method := "GET".toList }, state := .StateDone } ∧
    RequestFromReader [msg517] 520 ≠ RequestFromReader (oneByteChunks msg517) 520 := by
  have h3 : RequestFromReader [msg517] 520 = .panicked := by
    rw [RequestFromReader]
    exact rfr_panic_bound 520 519 msg517 [] _ 0 517 newRequest rfl rfl
      (by rw [show msg517.length = 517 from rfl]; rfl)
      (by decide)
  have h4 : RequestFromReader (oneByteChunks msg517) 520 =
      .okReq { RequestLine := { HttpVersion := "1.1".toList,
                                RequestTarget := '/' :: List.replicate 499 'a',
                                Method := "GET".toList }, state := .StateDone } := by
    have h1 := driver_onebyte msg517 513
      { HttpVersion := "1.1".toList, RequestTarget := '/' :: List.replicate 499 'a',
        Method := "GET".toList }
      (by rfl) (by rfl) (by decide) 514 0 520 (by omega) (by omega)
    rw [List.drop_zero, List.take_zero, List.nil_append, Nat.sub_zero] at h1
    rw [RequestFromReader]
    exact h1
  refine ⟨rfl, rfl, h3, h4, ?_⟩
  rw [h3, h4]
  decide

set_option maxRecDepth 2000 in
/-- Claim C8, witness: the amended statement applied to the spec's 37-byte
example message. -/
theorem claim_C8_witness :
    RequestFromReader (oneByteChunks "GET / HTTP/1.1\r\nHost: example.com\r\n\r\n".toList) 39 =
      RequestFromReader ["GET / HTTP/1.1\r\nHost: example.com\r\n\r\n".toList] 39 ∧
    RequestFromReader ["GET / HTTP/1.1\r\nHost: example.com\r\n\r\n".toList] 39 =
      .okReq { RequestLine := { HttpVersion := "1.1".toList, RequestTarget := "/".toList,
                                Method := "GET".toList }, state := .StateDone } :=
  claim_C8 "GET / HTTP/1.1\r\nHost: example.com\r\n\r\n".toList 14
    { HttpVersion := "1.1".toList, RequestTarget := "/".toList, Method := "GET".toList }
    39 (by rfl) (by rfl) (by decide) (by decide)
